import Mathlib

/-!
A shallow embedding of `src/tot/methods/bfs.py` (tree-of-thoughts breadth-first
search driver) and proofs about its behaviour.

Modelling conventions:
* The external LLM client `tot.models.gpt` is modelled as a deterministic
  oracle `GptFn : String → Nat → Option String → List String` mapping
  (prompt, n, stop) to the list of completions it returns.  The backend name
  and temperature bound by `functools.partial` in `solve`/`naive_solve` do not
  influence the control flow modelled here, so the oracle already stands for
  the partially-applied client.
* Observable side effects are threaded through a state `St` holding the task's
  `value_cache` (a Python dict, modelled as an association list in insertion
  order) and the append-only log `calls` of every LLM invocation
  (prompt, n, stop).  Python exceptions do not roll back side effects, so every
  operation returns its state even on error: `St → Except PyErr α × St`.
* Python's `str.split('\n')` is modelled by `pySplitNl` (structural recursion
  on the character list); it keeps empty fragments exactly as Python does.
* Python's stable `sorted(ids, key=..., reverse=True)` is modelled by the
  stable insertion sort `sortedDescBy`; any two stable descending sorts agree.
* `np.random.choice(ids, size=n, p=ps)` (ids = range) is modelled by
  inverse-CDF sampling: it renormalizes the cumulative sums by their last
  entry and, for the k-th draw `u ∈ [0,1)`, returns
  `searchsorted(cdf, u, side='right')`, i.e. the first index whose cdf entry
  exceeds `u`.  The uniform draws are supplied as an explicit stream.
* Scores use exact rational arithmetic `ℚ` in place of Python floats.
* `print` calls (`to_print`) are pure I/O and are not modelled.
* Python raises an unbound-variable error at the first *use* of a variable
  whose only assignments sit in untaken `if` branches; `PyErr.nameError v`
  records that failure for variable `v`.  In `solve`, an unrecognized
  `method_generate` leaves `new_ys` unbound, which line 112 uses immediately
  after the generation dispatch; an unrecognized `method_evaluate` leaves
  `values` unbound, which is first used inside the recognized selection
  branches (line 127 for sample selection; for greedy selection the key
  function of line 131, or, if the candidate set is empty so the key never
  runs, the unconditional reads at lines 137/140 — in every case a failure
  on `values` with the same observable state); an unrecognized
  `method_select` leaves `select_ids` unbound, and line 133 iterates
  `select_ids` before any use of `values`, so that failure is on
  `select_ids` even when `values` is also unbound.  The model raises each
  error at the point of first use, with the state reached by then.
-/

/-- Python `s.split('\n')` on the character list: keeps empty fragments,
`[] ↦ [[]]`. -/
def splitNl : List Char → List (List Char)
  | [] => [[]]
  | c :: cs =>
    if c = '\n' then [] :: splitNl cs
    else
      match splitNl cs with
      | l :: ls => (c :: l) :: ls
      | [] => [[c]]

/-- Python `s.split('\n')` for `String`. -/
def pySplitNl (s : String) : List String := (splitNl s.data).map String.mk

/-- Scores ("values") are exact rationals. -/
abbrev Score := ℚ

/-- The LLM oracle: (prompt, n, stop) ↦ completions. -/
abbrev GptFn := String → Nat → Option String → List String

/-- Python exceptions observable in `bfs.py`. -/
inductive PyErr where
  | valueError (msg : String)
  | nameError (var : String)
  | indexError
deriving DecidableEq, Repr

/-- Observable side-effect state: the task's value cache (a Python dict as an
association list in insertion order) and the log of LLM calls issued. -/
structure St where
  value_cache : List (String × Score)
  calls : List (String × Nat × Option String)
deriving DecidableEq, Repr

/-- Issue one LLM call: log it and return the oracle's completions. -/
def callGpt (gpt : GptFn) (prompt : String) (n : Nat) (stop : Option String)
    (st : St) : List String × St :=
  (gpt prompt n stop, ⟨st.value_cache, st.calls ++ [(prompt, n, stop)]⟩)

/-- Python dict assignment `d[k] = v`: overwrite if present, else append. -/
def dictInsert (k : String) (v : Score) (d : List (String × Score)) :
    List (String × Score) :=
  if (d.lookup k).isSome then
    d.map (fun kv => if kv.1 = k then (k, v) else kv)
  else
    d ++ [(k, v)]

/-- The task collaborator interface used by `bfs.py` (spec §6).  `stops` is
total because the interface guarantees `length ≥ steps`; in-range Python
indexing `task.stops[step]` is modelled as function application. -/
structure TotTask where
  steps : Nat
  stops : Nat → Option String
  get_input : Nat → String
  standard_prompt_wrap : String → String → String
  cot_prompt_wrap : String → String → String
  propose_prompt_wrap : String → String → String
  value_prompt_wrap : String → String → String
  vote_prompt_wrap : String → List String → String
  value_outputs_unwrap : String → String → List String → Score
  vote_outputs_unwrap : List String → Nat → List Score

/-- Embeds `get_value(task, x, y, n_evaluate_sample, cache_value)` from `bfs.py`. -/
def get_value (gpt : GptFn) (task : TotTask) (x y : String)
    (n_evaluate_sample : Nat) (cache_value : Bool) (st : St) : Score × St :=
  let value_prompt := task.value_prompt_wrap x y
  match cache_value, st.value_cache.lookup value_prompt with
  | true, some v => (v, st)
  | _, _ =>
    let r := callGpt gpt value_prompt n_evaluate_sample none st
    let value := task.value_outputs_unwrap x y r.1
    if cache_value then
      (value, ⟨dictInsert value_prompt value r.2.value_cache, r.2.calls⟩)
    else
      (value, r.2)

/-- The loop body of `get_values`, threading the per-call `local_value_cache`. -/
def get_valuesGo (gpt : GptFn) (task : TotTask) (x : String)
    (n_evaluate_sample : Nat) (cache_value : Bool) :
    List String → List (String × Score) → St → List Score × St
  | [], _, st => ([], st)
  | y :: ys, local_value_cache, st =>
    match local_value_cache.lookup y with
    | some _ =>
      let r := get_valuesGo gpt task x n_evaluate_sample cache_value ys
        local_value_cache st
      (0 :: r.1, r.2)
    | none =>
      let v := get_value gpt task x y n_evaluate_sample cache_value st
      let r := get_valuesGo gpt task x n_evaluate_sample cache_value ys
        (dictInsert y v.1 local_value_cache) v.2
      (v.1 :: r.1, r.2)

/-- Embeds `get_values(task, x, ys, n_evaluate_sample, cache_value)` from `bfs.py`. -/
def get_values (gpt : GptFn) (task : TotTask) (x : String) (ys : List String)
    (n_evaluate_sample : Nat) (cache_value : Bool) (st : St) :
    List Score × St :=
  get_valuesGo gpt task x n_evaluate_sample cache_value ys [] st

/-- Embeds `get_votes(task, x, ys, n_evaluate_sample)` from `bfs.py`. -/
def get_votes (gpt : GptFn) (task : TotTask) (x : String) (ys : List String)
    (n_evaluate_sample : Nat) (st : St) : List Score × St :=
  let vote_prompt := task.vote_prompt_wrap x ys
  let r := callGpt gpt vote_prompt n_evaluate_sample none st
  (task.vote_outputs_unwrap r.1 ys.length, r.2)

/-- Embeds `get_proposals(task, x, y)` from `bfs.py`: one completion, split on
newlines (empty fragments kept), each fragment appended to `y` with a
trailing newline.  Indexing `[0]` into an empty completion list raises. -/
def get_proposals (gpt : GptFn) (task : TotTask) (x y : String) (st : St) :
    Except PyErr (List String) × St :=
  let propose_prompt := task.propose_prompt_wrap x y
  let r := callGpt gpt propose_prompt 1 none st
  match r.1 with
  | [] => (.error .indexError, r.2)
  | out :: _ =>
    (.ok ((pySplitNl out).map (fun p => y ++ p ++ "\n")), r.2)

/-- Embeds `get_samples(task, x, y, n_generate_sample, prompt_sample, stop)` from
`bfs.py`: the template-mode dispatch raises `ValueError` on an unrecognized
identifier before any LLM call. -/
def get_samples (gpt : GptFn) (task : TotTask) (x y : String)
    (n_generate_sample : Nat) (prompt_sample : String) (stop : Option String)
    (st : St) : Except PyErr (List String) × St :=
  match (if prompt_sample = "standard" then
          .ok (task.standard_prompt_wrap x y)
        else if prompt_sample = "cot" then
          .ok (task.cot_prompt_wrap x y)
        else
          .error (.valueError
            ("prompt_sample " ++ prompt_sample ++ " not recognized")) :
        Except PyErr String) with
  | .error e => (.error e, st)
  | .ok prompt =>
    let r := callGpt gpt prompt n_generate_sample stop st
    (.ok (r.1.map (fun s => y ++ s)), r.2)

/-- Cumulative sums starting from a running total `acc` (`np.cumsum`). -/
def cumsumFrom (acc : Score) : List Score → List Score
  | [] => []
  | p :: ps => (acc + p) :: cumsumFrom (acc + p) ps

/-- Embeds `np.searchsorted(cdf, u, side='right')` on a nondecreasing array: the
first index whose entry exceeds `u`. -/
def searchsortedRight (cdf : List Score) (u : Score) : Nat :=
  (cdf.takeWhile (fun c => c ≤ u)).length

/-- Embeds `np.random.choice(range(len ps), size, p=ps)`: renormalize the cumulative
sums by their last entry, then map each uniform draw through inverse-CDF
lookup. -/
def npChoice (ps : List Score) (size : Nat) (draws : Nat → Score) :
    List Nat :=
  let cdf0 := cumsumFrom 0 ps
  let total := cdf0.getLastD 0
  let cdf := cdf0.map (fun c => c / total)
  (List.range size).map (fun k => searchsortedRight cdf (draws k))

/-- The `method_select == 'sample'` branch of `solve`:
`ps = np.array(values) / sum(values)` then `np.random.choice`. -/
def selectSample (values : List Score) (n_select_sample : Nat)
    (draws : Nat → Score) : List Nat :=
  let ps := values.map (fun v => v / values.sum)
  npChoice ps n_select_sample draws

/-- Stable insertion step for a descending sort: a newly inserted element
goes after every already-placed element of greater-or-equal key. -/
def insertDescBy (key : Nat → Score) (x : Nat) : List Nat → List Nat
  | [] => [x]
  | y :: ys =>
    if key x ≤ key y then y :: insertDescBy key x ys else x :: y :: ys

/-- Python `sorted(l, key=key, reverse=True)`: stable descending sort. -/
def sortedDescBy (key : Nat → Score) (l : List Nat) : List Nat :=
  l.foldl (fun acc x => insertDescBy key x acc) []

/-- The `method_select == 'greedy'` branch of `solve`:
`sorted(ids, key=lambda x: values[x], reverse=True)[:n_select_sample]`. -/
def selectGreedy (values : List Score) (ids : List Nat)
    (n_select_sample : Nat) : List Nat :=
  (sortedDescBy (fun i => values.getD i 0) ids).take n_select_sample

/-- Run configuration (`args`) consumed by `solve`/`naive_solve`. -/
structure Args where
  backend : String
  temperature : Score
  method_generate : String
  method_evaluate : String
  method_select : String
  prompt_sample : String
  n_generate_sample : Nat
  n_evaluate_sample : Nat
  n_select_sample : Nat

/-- One record of the returned trace: the dict appended to `infos` each
step. -/
structure StepInfo where
  step : Nat
  x : String
  ys : List String
  new_ys : List String
  values : List Score
  select_new_ys : List String
deriving DecidableEq, Repr

/-- A Python list comprehension `[f y for y in ys]` over a fallible,
stateful `f`, evaluated left to right, stopping at the first exception. -/
def mapGen (f : String → St → Except PyErr (List String) × St) :
    List String → St → Except PyErr (List (List String)) × St
  | [], st => (.ok [], st)
  | y :: ys, st =>
    match f y st with
    | (.error e, st1) => (.error e, st1)
    | (.ok r, st1) =>
      match mapGen f ys st1 with
      | (.error e, st2) => (.error e, st2)
      | (.ok rs, st2) => (.ok (r :: rs), st2)

/-- One iteration of the `for step in range(task.steps)` loop in `solve`:
generation, evaluation, selection, and the step record.  `draws` is the
uniform stream consumed by `np.random.choice` at this step.  The evaluation
dispatch has no else-branch in the source, so an unrecognized
`method_evaluate` leaves `values` unbound (modelled as `none`) and the
failure surfaces only at the first use of `values`, which sits inside the
recognized selection branches (line 127 for sample selection; for greedy
selection the key function of line 131, or — when the candidate set is
empty, so the key is never called — the unconditional reads at lines
137/140, in every case an unbound-variable failure on `values` with the
same state).  When `method_select` is itself unrecognized, line 133
iterates the unbound `select_ids` before any use of `values`, so the
failure is on `select_ids` whether or not `values` is bound. -/
def solveStep (gpt : GptFn) (args : Args) (task : TotTask) (x : String)
    (draws : Nat → Score) (step : Nat) (ys : List String) (st : St) :
    Except PyErr (StepInfo × List String) × St :=
  match (if args.method_generate = "sample" then
          mapGen (fun y => get_samples gpt task x y args.n_generate_sample
            args.prompt_sample (task.stops step)) ys st
        else if args.method_generate = "propose" then
          mapGen (fun y => get_proposals gpt task x y) ys st
        else
          (.error (.nameError "new_ys"), st)) with
  | (.error e, st1) => (.error e, st1)
  | (.ok new_yss, st1) =>
    let new_ys := new_yss.flatten
    let ev : Option (List Score) × St :=
      if args.method_evaluate = "vote" then
        let r := get_votes gpt task x new_ys args.n_evaluate_sample st1
        (some r.1, r.2)
      else if args.method_evaluate = "value" then
        let r := get_values gpt task x new_ys args.n_evaluate_sample true st1
        (some r.1, r.2)
      else
        (none, st1)
    if args.method_select = "sample" then
      match ev with
      | (none, st2) => (.error (.nameError "values"), st2)
      | (some values, st2) =>
        let select_ids := selectSample values args.n_select_sample draws
        let select_new_ys := select_ids.map (fun i => new_ys.getD i "")
        ((.ok (⟨step, x, ys, new_ys, values, select_new_ys⟩,
          select_new_ys)), st2)
    else if args.method_select = "greedy" then
      match ev with
      | (none, st2) => (.error (.nameError "values"), st2)
      | (some values, st2) =>
        let select_ids := selectGreedy values (List.range new_ys.length)
          args.n_select_sample
        let select_new_ys := select_ids.map (fun i => new_ys.getD i "")
        ((.ok (⟨step, x, ys, new_ys, values, select_new_ys⟩,
          select_new_ys)), st2)
    else
      (.error (.nameError "select_ids"), ev.2)

/-- The main loop of `solve`, structurally recursive on the remaining fuel;
`step` is the current index, `infos` the trace accumulated so far. -/
def solveLoop (gpt : GptFn) (args : Args) (task : TotTask) (x : String)
    (draws : Nat → Nat → Score) :
    Nat → Nat → List String → List StepInfo → St →
    Except PyErr (List String × List StepInfo) × St
  | 0, _, ys, infos, st => (.ok (ys, infos), st)
  | fuel + 1, step, ys, infos, st =>
    match solveStep gpt args task x (draws step) step ys st with
    | (.error e, st1) => (.error e, st1)
    | (.ok (info, select_new_ys), st1) =>
      solveLoop gpt args task x draws fuel (step + 1) select_new_ys
        (infos ++ [info]) st1

/-- Embeds `solve(args, task, idx)` from `bfs.py`: frontier seeded with the single
empty candidate, `task.steps` iterations, returns the final frontier and the
trace (`{'steps': infos}` modelled as the list `infos`). -/
def solve (gpt : GptFn) (args : Args) (task : TotTask) (idx : Nat)
    (draws : Nat → Nat → Score) (st : St) :
    Except PyErr (List String × List StepInfo) × St :=
  let x := task.get_input idx
  solveLoop gpt args task x draws task.steps 0 [""] [] st

/-- Embeds `naive_solve(args, task, idx)` from `bfs.py`: one `get_samples` call from
the empty candidate with `stop=None`; the returned `{}` is modelled as the
empty trace. -/
def naive_solve (gpt : GptFn) (args : Args) (task : TotTask) (idx : Nat)
    (st : St) : Except PyErr (List String × List StepInfo) × St :=
  let x := task.get_input idx
  match get_samples gpt task x "" args.n_generate_sample args.prompt_sample
      none st with
  | (.error e, st1) => (.error e, st1)
  | (.ok ys, st1) => (.ok (ys, []), st1)

/-- The shape the spec requires of a trace produced from frontier `ys0` with
first step index `start`: consecutive step indices, each record's
frontier-before equal to the previous record's frontier-after, and the final
frontier-after equal to the returned frontier `ysFin`. -/
def TraceOK (start : Nat) (ys0 ysFin : List String) : List StepInfo → Prop
  | [] => ysFin = ys0
  | r :: rest =>
    r.step = start ∧ r.ys = ys0 ∧ TraceOK (start + 1) r.select_new_ys ysFin rest

/-! ### Helper lemmas and concrete environments -/

theorem lookup_append_of_none (l1 l2 : List (String × Score)) (k : String)
    (h : l1.lookup k = none) : (l1 ++ l2).lookup k = l2.lookup k := by
  induction l1 with
  | nil => simp
  | cons p l1 ih =>
    obtain ⟨k1, v1⟩ := p
    simp only [List.cons_append, List.lookup_cons] at h ⊢
    cases hkp : (k == k1) with
    | true => simp [hkp] at h
    | false => simp only [hkp] at h ⊢; exact ih h

/-- A trivial oracle for concrete runs: `n` copies of `"z"`. -/
def gptW : GptFn := fun _ n _ => List.replicate n "z"

/-- A concrete task used in concrete runs. -/
def taskW : TotTask where
  steps := 2
  stops := fun _ => none
  get_input := fun _ => "X"
  standard_prompt_wrap := fun x y => "STD:" ++ x ++ ":" ++ y
  cot_prompt_wrap := fun x y => "COT:" ++ x ++ ":" ++ y
  propose_prompt_wrap := fun x y => "PROP:" ++ x ++ ":" ++ y
  value_prompt_wrap := fun x y => "VAL:" ++ x ++ ":" ++ y
  vote_prompt_wrap := fun x _ => "VOTE:" ++ x
  value_outputs_unwrap := fun _ y _ => if y = "z" then 3 else if y = "zz" then 5 else 1
  vote_outputs_unwrap := fun _ n => List.replicate n 2

/-- A concrete run configuration. -/
def argsW : Args where
  backend := "gpt-4"
  temperature := 1
  method_generate := "sample"
  method_evaluate := "value"
  method_select := "greedy"
  prompt_sample := "standard"
  n_generate_sample := 1
  n_evaluate_sample := 1
  n_select_sample := 1

/-- The empty starting state: empty value cache, no calls issued. -/
def stEmpty : St := ⟨[], []⟩

/-- A concrete uniform-draw stream. -/
def drawsW : Nat → Nat → Score := fun _ _ => 1 / 2

/-! ### C10: `solve` with `task.steps = 0` -/

/-- C10: when `task.steps = 0` the loop body never runs, so `solve` issues no
LLM call, leaves the state untouched, and returns the initial frontier
(the single empty candidate) with an empty trace. -/
theorem claim_C10 (gpt : GptFn) (args : Args) (task : TotTask) (idx : Nat)
    (draws : Nat → Nat → Score) (st : St) (h : task.steps = 0) :
    solve gpt args task idx draws st = (.ok ([""], []), st) := by
  simp [solve, h, solveLoop]

theorem claim_C10_witness :
    ({ taskW with steps := 0 } : TotTask).steps = 0 ∧
    solve gptW argsW { taskW with steps := 0 } 0 drawsW stEmpty
      = (.ok ([""], []), stEmpty) :=
  ⟨rfl, claim_C10 gptW argsW { taskW with steps := 0 } 0 drawsW stEmpty rfl⟩

/-! ### C4: value-cache idempotence in `get_value` -/

/-- C4: with caching enabled and the rendered evaluation prompt not yet
cached, the first `get_value` issues exactly one scoring call and stores the
score in the value cache keyed by the rendered prompt; the second `get_value`
on the same pair returns the identical score and changes nothing (no LLM
call, no cache modification). -/
theorem claim_C4 (gpt : GptFn) (task : TotTask) (x y : String) (n : Nat)
    (st : St)
    (h : st.value_cache.lookup (task.value_prompt_wrap x y) = none) :
    (get_value gpt task x y n true st).2.calls
        = st.calls ++ [(task.value_prompt_wrap x y, n, none)] ∧
    (get_value gpt task x y n true st).2.value_cache
        = st.value_cache
            ++ [(task.value_prompt_wrap x y, (get_value gpt task x y n true st).1)] ∧
    get_value gpt task x y n true (get_value gpt task x y n true st).2
        = ((get_value gpt task x y n true st).1,
           (get_value gpt task x y n true st).2) := by
  have h1 : get_value gpt task x y n true st
      = (task.value_outputs_unwrap x y
            (gpt (task.value_prompt_wrap x y) n none),
         ⟨st.value_cache
            ++ [(task.value_prompt_wrap x y,
                 task.value_outputs_unwrap x y
                   (gpt (task.value_prompt_wrap x y) n none))],
          st.calls ++ [(task.value_prompt_wrap x y, n, none)]⟩) := by
    simp [get_value, h, callGpt, dictInsert]
  refine ⟨by rw [h1], by rw [h1], ?_⟩
  rw [h1]
  simp only [get_value]
  rw [lookup_append_of_none _ _ _ h]
  simp [List.lookup]

theorem claim_C4_witness :
    (stEmpty.value_cache.lookup (taskW.value_prompt_wrap "X" "z") = none) ∧
    ((get_value gptW taskW "X" "z" 1 true stEmpty).2.calls
        = stEmpty.calls ++ [(taskW.value_prompt_wrap "X" "z", 1, none)] ∧
     (get_value gptW taskW "X" "z" 1 true stEmpty).2.value_cache
        = stEmpty.value_cache
            ++ [(taskW.value_prompt_wrap "X" "z",
                 (get_value gptW taskW "X" "z" 1 true stEmpty).1)] ∧
     get_value gptW taskW "X" "z" 1 true
         (get_value gptW taskW "X" "z" 1 true stEmpty).2
        = ((get_value gptW taskW "X" "z" 1 true stEmpty).1,
           (get_value gptW taskW "X" "z" 1 true stEmpty).2)) :=
  ⟨rfl, claim_C4 gptW taskW "X" "z" 1 stEmpty rfl⟩

/-! ### C3: duplicate suppression in `get_values` -/

theorem get_valuesGo_length (gpt : GptFn) (task : TotTask) (x : String)
    (n : Nat) (cv : Bool) :
    ∀ (ys : List String) (lc : List (String × Score)) (st : St),
      (get_valuesGo gpt task x n cv ys lc st).1.length = ys.length := by
  intro ys
  induction ys with
  | nil => intro lc st; rfl
  | cons y ys ih =>
    intro lc st
    simp only [get_valuesGo]
    cases hl : lc.lookup y <;> simp [ih]

theorem lookup_append_singleton_ne (d : List (String × Score)) (k : String)
    (v : Score) (y : String) (h : y ≠ k) :
    (d ++ [(k, v)]).lookup y = d.lookup y := by
  induction d with
  | nil =>
    simp only [List.nil_append, List.lookup_cons, List.lookup_nil,
      beq_eq_false_iff_ne.mpr h]
  | cons p d ih =>
    obtain ⟨k1, v1⟩ := p
    simp only [List.cons_append, List.lookup_cons]
    cases hb : (y == k1) with
    | true => simp only [hb]
    | false => simp only [hb]; exact ih

theorem lookup_map_overwrite_self (d : List (String × Score)) (k : String)
    (v : Score) (hs : (d.lookup k).isSome = true) :
    (d.map (fun kv => if kv.1 = k then (k, v) else kv)).lookup k
      = some v := by
  induction d with
  | nil => simp at hs
  | cons p d ih =>
    obtain ⟨k1, v1⟩ := p
    simp only [List.lookup_cons] at hs
    simp only [List.map_cons]
    by_cases hk1 : k1 = k
    · subst hk1
      simp [List.lookup_cons]
    · rw [if_neg hk1]
      have hb : (k == k1) = false :=
        beq_eq_false_iff_ne.mpr (fun hc => hk1 hc.symm)
      simp only [List.lookup_cons, hb]
      simp only [hb] at hs
      exact ih hs

theorem lookup_map_overwrite_ne (d : List (String × Score)) (k : String)
    (v : Score) (y : String) (h : y ≠ k) :
    (d.map (fun kv => if kv.1 = k then (k, v) else kv)).lookup y
      = d.lookup y := by
  induction d with
  | nil => rfl
  | cons p d ih =>
    obtain ⟨k1, v1⟩ := p
    simp only [List.map_cons]
    by_cases hk1 : k1 = k
    · subst hk1
      rw [if_pos rfl]
      have hb : (y == k1) = false := beq_eq_false_iff_ne.mpr h
      simp only [List.lookup_cons, hb]
      exact ih
    · rw [if_neg hk1]
      simp only [List.lookup_cons]
      cases hb : (y == k1) with
      | true => simp only [hb]
      | false => simp only [hb]; exact ih

theorem lookup_dictInsert_self (d : List (String × Score)) (k : String)
    (v : Score) : (dictInsert k v d).lookup k = some v := by
  unfold dictInsert
  split
  case isTrue hs => exact lookup_map_overwrite_self d k v hs
  case isFalse hs =>
    have hnone : d.lookup k = none := by
      cases hdk : d.lookup k with
      | none => rfl
      | some w => exact absurd (by simp [hdk]) hs
    rw [lookup_append_of_none _ _ _ hnone]
    simp [List.lookup_cons]

theorem lookup_dictInsert_ne (d : List (String × Score)) (k : String)
    (v : Score) (y : String) (h : y ≠ k) :
    (dictInsert k v d).lookup y = d.lookup y := by
  unfold dictInsert
  split
  · exact lookup_map_overwrite_ne d k v y h
  · exact lookup_append_singleton_ne d k v y h

/-- The reference evaluation the spec calls "scored normally": consecutive
`get_value` queries, one per candidate, threading the state.  It is the
yardstick against which `get_values` is compared on duplicate-free lists. -/
def runValues (gpt : GptFn) (task : TotTask) (x : String) (n : Nat)
    (cv : Bool) : List String → St → List Score × St
  | [], st => ([], st)
  | y :: ys, st =>
    let v := get_value gpt task x y n cv st
    let r := runValues gpt task x n cv ys v.2
    (v.1 :: r.1, r.2)

theorem get_valuesGo_nodup (gpt : GptFn) (task : TotTask) (x : String)
    (n : Nat) (cv : Bool) :
    ∀ (ys : List String) (lc : List (String × Score)) (st : St),
      (∀ y ∈ ys, lc.lookup y = none) → ys.Nodup →
      get_valuesGo gpt task x n cv ys lc st
        = runValues gpt task x n cv ys st := by
  intro ys
  induction ys with
  | nil => intro lc st _ _; rfl
  | cons y ys ih =>
    intro lc st hnone hnd
    rw [List.nodup_cons] at hnd
    simp only [get_valuesGo, runValues]
    rw [hnone y (List.mem_cons_self y ys)]
    rw [ih (dictInsert y (get_value gpt task x y n cv st).1 lc)
      (get_value gpt task x y n cv st).2 ?_ hnd.2]
    intro z hz
    have hzy : z ≠ y := by
      intro hc
      subst hc
      exact hnd.1 hz
    rw [lookup_dictInsert_ne _ _ _ _ hzy]
    exact hnone z (List.mem_cons_of_mem _ hz)

theorem get_valuesGo_duplicate (gpt : GptFn) (task : TotTask) (x : String)
    (n : Nat) (cv : Bool) :
    ∀ (us : List String) (y : String) (vs : List String)
      (lc : List (String × Score)) (st : St),
      (y ∈ us ∨ (lc.lookup y).isSome = true) →
      get_valuesGo gpt task x n cv (us ++ y :: vs) lc st
        = ((get_valuesGo gpt task x n cv (us ++ vs) lc st).1.take us.length
            ++ 0 ::
              (get_valuesGo gpt task x n cv (us ++ vs) lc st).1.drop
                us.length,
           (get_valuesGo gpt task x n cv (us ++ vs) lc st).2) := by
  intro us
  induction us with
  | nil =>
    intro y vs lc st hy
    have hs : (lc.lookup y).isSome = true := by
      rcases hy with h | h
      · simp at h
      · exact h
    obtain ⟨v, hv⟩ := Option.isSome_iff_exists.mp hs
    simp only [List.nil_append, get_valuesGo, hv]
    simp
  | cons u us ih =>
    intro y vs lc st hy
    simp only [List.cons_append, get_valuesGo, List.append_eq]
    cases hl : lc.lookup u with
    | some w =>
      simp only [hl]
      have hcond : y ∈ us ∨ (lc.lookup y).isSome = true := by
        rcases hy with h | h
        · rcases List.mem_cons.mp h with rfl | h2
          · exact Or.inr (by simp [hl])
          · exact Or.inl h2
        · exact Or.inr h
      rw [ih y vs lc st hcond]
      simp [List.take_succ_cons, List.drop_succ_cons]
    | none =>
      simp only [hl]
      have hcond : y ∈ us ∨
          ((dictInsert u (get_value gpt task x u n cv st).1 lc).lookup
            y).isSome = true := by
        rcases hy with h | h
        · rcases List.mem_cons.mp h with rfl | h2
          · exact Or.inr (by rw [lookup_dictInsert_self]; rfl)
          · exact Or.inl h2
        · by_cases hyu : y = u
          · subst hyu
            exact Or.inr (by rw [lookup_dictInsert_self]; rfl)
          · exact Or.inr (by rw [lookup_dictInsert_ne _ _ _ _ hyu]; exact h)
      rw [ih y vs (dictInsert u (get_value gpt task x u n cv st).1 lc)
        (get_value gpt task x u n cv st).2 hcond]
      simp [List.take_succ_cons, List.drop_succ_cons]

/-- C3: the value-strategy evaluator returns one score per candidate in the
same order.  Within one call the rule is fully general and order-sensitive:
any occurrence of a candidate value with an earlier identical occurrence is
assigned score 0 and contributes nothing else — the whole call equals the
call on the list without that occurrence with a 0 spliced into its slot
(same state, so no scoring query) — while on a duplicate-free list every
candidate (in particular the first occurrence of each distinct value) is
scored normally by consecutive `get_value` queries; e.g. on `[A, A, B]`
with `A ≠ B` the call is exactly `get_value` on `A` then `get_value` on
`B`, returning `[score(A), 0, score(B)]`. -/
theorem claim_C3 :
    (∀ (gpt : GptFn) (task : TotTask) (x : String) (ys : List String)
        (n : Nat) (cv : Bool) (st : St),
      (get_values gpt task x ys n cv st).1.length = ys.length) ∧
    (∀ (gpt : GptFn) (task : TotTask) (x : String) (n : Nat) (cv : Bool)
        (us : List String) (y : String) (vs : List String) (st : St),
      y ∈ us →
      get_values gpt task x (us ++ y :: vs) n cv st
        = ((get_values gpt task x (us ++ vs) n cv st).1.take us.length
            ++ 0 ::
              (get_values gpt task x (us ++ vs) n cv st).1.drop us.length,
           (get_values gpt task x (us ++ vs) n cv st).2)) ∧
    (∀ (gpt : GptFn) (task : TotTask) (x : String) (n : Nat) (cv : Bool)
        (ys : List String) (st : St), ys.Nodup →
      get_values gpt task x ys n cv st = runValues gpt task x n cv ys st) ∧
    (∀ (gpt : GptFn) (task : TotTask) (x : String) (n : Nat) (cv : Bool)
        (st : St) (A B : String), A ≠ B →
      get_values gpt task x [A, A, B] n cv st =
        ([(get_value gpt task x A n cv st).1, 0,
          (get_value gpt task x B n cv (get_value gpt task x A n cv st).2).1],
         (get_value gpt task x B n cv
           (get_value gpt task x A n cv st).2).2)) := by
  refine ⟨?_, ?_, ?_, ?_⟩
  · intro gpt task x ys n cv st
    exact get_valuesGo_length gpt task x n cv ys [] st
  · intro gpt task x n cv us y vs st hy
    exact get_valuesGo_duplicate gpt task x n cv us y vs [] st (Or.inl hy)
  · intro gpt task x n cv ys st hnd
    exact get_valuesGo_nodup gpt task x n cv ys [] st (fun _ _ => rfl) hnd
  · intro gpt task x n cv st A B hAB
    have hBA : (B == A) = false := by
      simp only [beq_eq_false_iff_ne, ne_eq]
      exact fun hc => hAB hc.symm
    simp [get_values, get_valuesGo, dictInsert, List.lookup_cons, hBA]

theorem claim_C3_witness :
    (("A" : String) ∈ ["A"]) ∧
    get_values gptW taskW "X" (["A"] ++ "A" :: ["B"]) 1 true stEmpty
      = ((get_values gptW taskW "X" (["A"] ++ ["B"]) 1 true stEmpty).1.take
            (["A"] : List String).length
          ++ 0 ::
            (get_values gptW taskW "X" (["A"] ++ ["B"]) 1 true
              stEmpty).1.drop (["A"] : List String).length,
         (get_values gptW taskW "X" (["A"] ++ ["B"]) 1 true stEmpty).2) :=
  ⟨by decide,
    claim_C3.2.1 gptW taskW "X" 1 true ["A"] "A" ["B"] stEmpty (by decide)⟩

/-! ### C6: sampling-strategy generation -/

/-- C6: with a recognized template mode and a backend returning exactly `n`
completions, `get_samples` returns exactly `n` candidates, each the original
candidate `y` with one completion appended (hence `y` is a prefix of each). -/
theorem claim_C6 (gpt : GptFn) (task : TotTask) (x y : String) (n : Nat)
    (prompt_sample : String) (stop : Option String) (st : St)
    (hps : prompt_sample = "standard" ∨ prompt_sample = "cot")
    (hlen : ∀ prompt, (gpt prompt n stop).length = n) :
    ∃ cands : List String,
      (get_samples gpt task x y n prompt_sample stop st).1 = .ok cands ∧
      cands.length = n ∧
      ∀ c ∈ cands, ∃ s : String, c = y ++ s := by
  rcases hps with h | h <;> subst h
  · refine ⟨(gpt (task.standard_prompt_wrap x y) n stop).map
      (fun s => y ++ s), ?_, ?_, ?_⟩
    · simp [get_samples, callGpt]
    · simp [hlen]
    · intro c hc
      rw [List.mem_map] at hc
      obtain ⟨s, _, rfl⟩ := hc
      exact ⟨s, rfl⟩
  · refine ⟨(gpt (task.cot_prompt_wrap x y) n stop).map
      (fun s => y ++ s), ?_, ?_, ?_⟩
    · simp [get_samples, callGpt]
    · simp [hlen]
    · intro c hc
      rw [List.mem_map] at hc
      obtain ⟨s, _, rfl⟩ := hc
      exact ⟨s, rfl⟩

theorem claim_C6_witness :
    (("standard" : String) = "standard" ∨ ("standard" : String) = "cot") ∧
    (∀ prompt, (gptW prompt 3 none).length = 3) ∧
    (∃ cands : List String,
      (get_samples gptW taskW "X" "y0" 3 "standard" none stEmpty).1
        = .ok cands ∧
      cands.length = 3 ∧
      ∀ c ∈ cands, ∃ s : String, c = "y0" ++ s) :=
  ⟨Or.inl rfl, fun _ => rfl,
    claim_C6 gptW taskW "X" "y0" 3 "standard" none stEmpty (Or.inl rfl)
      (fun _ => rfl)⟩

/-! ### C2: proposal-strategy generation -/

/-- An oracle whose single completion contains an empty line. -/
def gptP : GptFn := fun _ _ _ => ["a\n\nb"]

/-- C2 as stated is false: a completion with exactly 2 non-empty lines
(`"a\n\nb"`) yields 3 candidates, one of which is built from the empty
line. -/
theorem claim_C2_counterexample :
    (get_proposals gptP taskW "X" "" stEmpty).1
      = .ok ["a\n", "\n", "b\n"] ∧
    ((pySplitNl "a\n\nb").filter (fun l => l ≠ "")).length = 2 ∧
    ([("a\n" : String), "\n", "b\n"].length ≠ 2) :=
  ⟨rfl, by decide, by decide⟩

/-- C2 (amended): the proposal generator keeps every line of the completion,
empty lines included: given the single completion `c`, it returns one
candidate per line of `c` (as split on the newline separator), each equal to
`y` concatenated with that line and a trailing line terminator; the
candidate count therefore equals the total number of lines, which is the
number of non-empty lines only when no line is empty. -/
theorem claim_C2 (gpt : GptFn) (task : TotTask) (x y : String) (st : St)
    (c : String) (rest : List String)
    (h : gpt (task.propose_prompt_wrap x y) 1 none = c :: rest) :
    (get_proposals gpt task x y st).1
      = .ok ((pySplitNl c).map (fun p => y ++ p ++ "\n")) ∧
    ((pySplitNl c).map (fun p => y ++ p ++ "\n")).length
      = (pySplitNl c).length := by
  constructor
  · simp [get_proposals, callGpt, h]
  · simp

theorem claim_C2_witness :
    (gptW (taskW.propose_prompt_wrap "X" "") 1 none = "z" :: []) ∧
    ((get_proposals gptW taskW "X" "" stEmpty).1
      = .ok ((pySplitNl "z").map (fun p => "" ++ p ++ "\n")) ∧
    ((pySplitNl "z").map (fun p => "" ++ p ++ "\n")).length
      = (pySplitNl "z").length) :=
  ⟨rfl, claim_C2 gptW taskW "X" "" stEmpty "z" [] rfl⟩

/-! ### C9: the naive baseline -/

/-- C9: `naive_solve` performs a single sampling-strategy generation from the
empty candidate with no stop condition and returns exactly
`n_generate_sample` candidates (when the backend returns that many
completions) with an empty trace; the value cache is not modified, and it is
not read either — the outcome is the same whatever the cache contains. -/
theorem claim_C9 (gpt : GptFn) (args : Args) (task : TotTask) (idx : Nat)
    (st : St)
    (hps : args.prompt_sample = "standard" ∨ args.prompt_sample = "cot")
    (hlen : ∀ prompt, (gpt prompt args.n_generate_sample none).length
      = args.n_generate_sample) :
    (∃ cands : List String,
      (naive_solve gpt args task idx st).1 = .ok (cands, []) ∧
      cands.length = args.n_generate_sample) ∧
    (naive_solve gpt args task idx st).2.value_cache = st.value_cache ∧
    (∀ cache2 : List (String × Score),
      (naive_solve gpt args task idx ⟨cache2, st.calls⟩).1
        = (naive_solve gpt args task idx st).1 ∧
      (naive_solve gpt args task idx ⟨cache2, st.calls⟩).2.calls
        = (naive_solve gpt args task idx st).2.calls ∧
      (naive_solve gpt args task idx ⟨cache2, st.calls⟩).2.value_cache
        = cache2) := by
  rcases hps with h | h
  · refine ⟨⟨(gpt (task.standard_prompt_wrap (task.get_input idx) "")
        args.n_generate_sample none).map (fun s => "" ++ s), ?_, ?_⟩, ?_, ?_⟩
    · simp [naive_solve, get_samples, h, callGpt]
    · simp [hlen]
    · simp [naive_solve, get_samples, h, callGpt]
    · intro cache2
      refine ⟨?_, ?_, ?_⟩ <;> simp [naive_solve, get_samples, h, callGpt]
  · refine ⟨⟨(gpt (task.cot_prompt_wrap (task.get_input idx) "")
        args.n_generate_sample none).map (fun s => "" ++ s), ?_, ?_⟩, ?_, ?_⟩
    · simp [naive_solve, get_samples, h, callGpt]
    · simp [hlen]
    · simp [naive_solve, get_samples, h, callGpt]
    · intro cache2
      refine ⟨?_, ?_, ?_⟩ <;> simp [naive_solve, get_samples, h, callGpt]

theorem claim_C9_witness :
    ((argsW.prompt_sample = "standard" ∨ argsW.prompt_sample = "cot") ∧
     (∀ prompt, (gptW prompt argsW.n_generate_sample none).length
        = argsW.n_generate_sample)) ∧
    ((∃ cands : List String,
       (naive_solve gptW argsW taskW 0 stEmpty).1 = .ok (cands, []) ∧
       cands.length = argsW.n_generate_sample) ∧
     (naive_solve gptW argsW taskW 0 stEmpty).2.value_cache
        = stEmpty.value_cache ∧
     (∀ cache2 : List (String × Score),
       (naive_solve gptW argsW taskW 0 ⟨cache2, stEmpty.calls⟩).1
         = (naive_solve gptW argsW taskW 0 stEmpty).1 ∧
       (naive_solve gptW argsW taskW 0 ⟨cache2, stEmpty.calls⟩).2.calls
         = (naive_solve gptW argsW taskW 0 stEmpty).2.calls ∧
       (naive_solve gptW argsW taskW 0 ⟨cache2, stEmpty.calls⟩).2.value_cache
         = cache2)) :=
  ⟨⟨Or.inl rfl, fun _ => rfl⟩,
    claim_C9 gptW argsW taskW 0 stEmpty (Or.inl rfl) (fun _ => rfl)⟩

/-! ### C5: greedy selection is stable top-k -/

theorem insertDescBy_perm (key : Nat → Score) (x : Nat) (l : List Nat) :
    (insertDescBy key x l).Perm (x :: l) := by
  induction l with
  | nil => exact List.Perm.refl _
  | cons y ys ih =>
    simp only [insertDescBy]
    split
    · exact (ih.cons y).trans (List.Perm.swap x y ys)
    · exact List.Perm.refl _

theorem foldl_insertDescBy_perm (key : Nat → Score) :
    ∀ (l acc : List Nat),
      (l.foldl (fun a x => insertDescBy key x a) acc).Perm (acc ++ l) := by
  intro l
  induction l with
  | nil => intro acc; simp
  | cons x xs ih =>
    intro acc
    have h1 : (List.foldl (fun a x => insertDescBy key x a)
        (insertDescBy key x acc) xs).Perm ((insertDescBy key x acc) ++ xs) :=
      ih (insertDescBy key x acc)
    have h2 : ((insertDescBy key x acc) ++ xs).Perm ((x :: acc) ++ xs) :=
      (insertDescBy_perm key x acc).append_right xs
    have h3 : (acc ++ x :: xs).Perm (x :: (acc ++ xs)) := List.perm_middle
    exact (h1.trans h2).trans h3.symm

theorem sortedDescBy_perm (key : Nat → Score) (l : List Nat) :
    (sortedDescBy key l).Perm l := by
  have := foldl_insertDescBy_perm key l []
  simpa [sortedDescBy] using this

theorem insertDescBy_pairwise (key : Nat → Score) (x : Nat) (l : List Nat)
    (hl : l.Pairwise fun i j =>
      key j < key i ∨ (key i = key j ∧ i < j))
    (hlt : ∀ a ∈ l, a < x) :
    (insertDescBy key x l).Pairwise fun i j =>
      key j < key i ∨ (key i = key j ∧ i < j) := by
  induction l with
  | nil => simp [insertDescBy]
  | cons y ys ih =>
    rw [List.pairwise_cons] at hl
    obtain ⟨hy, hys⟩ := hl
    simp only [insertDescBy]
    split
    case isTrue hxy =>
      rw [List.pairwise_cons]
      refine ⟨?_, ih hys (fun a ha => hlt a (List.mem_cons_of_mem _ ha))⟩
      intro z hz
      have hz2 : z = x ∨ z ∈ ys := by
        have := (insertDescBy_perm key x ys).mem_iff.mp hz
        simpa using this
      rcases hz2 with rfl | hzys
      · rcases lt_or_eq_of_le hxy with hlt2 | heq
        · exact Or.inl hlt2
        · exact Or.inr ⟨heq.symm, hlt y (List.mem_cons_self y ys)⟩
      · exact hy z hzys
    case isFalse hxy =>
      push_neg at hxy
      rw [List.pairwise_cons]
      refine ⟨?_, List.pairwise_cons.mpr ⟨hy, hys⟩⟩
      intro z hz
      rcases List.mem_cons.mp hz with rfl | hzys
      · exact Or.inl hxy
      · rcases hy z hzys with h1 | h2
        · exact Or.inl (h1.trans hxy)
        · exact Or.inl (h2.1 ▸ hxy)

theorem foldl_insertDescBy_pairwise (key : Nat → Score) :
    ∀ (l acc : List Nat),
      (acc.Pairwise fun i j => key j < key i ∨ (key i = key j ∧ i < j)) →
      (∀ a ∈ acc, ∀ b ∈ l, a < b) →
      l.Pairwise (· < ·) →
      ((l.foldl (fun a x => insertDescBy key x a) acc).Pairwise
        fun i j => key j < key i ∨ (key i = key j ∧ i < j)) := by
  intro l
  induction l with
  | nil => intro acc h _ _; exact h
  | cons x xs ih =>
    intro acc hacc hcross hl
    rw [List.pairwise_cons] at hl
    apply ih
    · exact insertDescBy_pairwise key x acc hacc
        (fun a ha => hcross a ha x (List.mem_cons_self x xs))
    · intro a ha b hb
      have ha2 : a = x ∨ a ∈ acc := by
        have := (insertDescBy_perm key x acc).mem_iff.mp ha
        simpa using this
      rcases ha2 with rfl | haacc
      · exact hl.1 b hb
      · exact hcross a haacc b (List.mem_cons_of_mem _ hb)
    · exact hl.2

theorem sortedDescBy_pairwise (key : Nat → Score) (m : Nat) :
    (sortedDescBy key (List.range m)).Pairwise
      fun i j => key j < key i ∨ (key i = key j ∧ i < j) := by
  exact foldl_insertDescBy_pairwise key (List.range m) []
    (List.Pairwise.nil) (by intro a ha; simp at ha)
    (List.pairwise_lt_range m)

/-- C5: greedy selection takes the first `count` entries of the unique
reordering of the candidate indices that is descending in score and, among
equal scores, ascending in original index (stable).  In particular, for
scores `[3, 1, 3]` and count 2 it returns the candidates at indices
`[0, 2]`, not `[2, 0]`. -/
theorem claim_C5 (values : List Score) (n : Nat) :
    (∃ L : List Nat,
      L.Perm (List.range values.length) ∧
      (L.Pairwise fun i j => values.getD j 0 < values.getD i 0 ∨
        (values.getD i 0 = values.getD j 0 ∧ i < j)) ∧
      selectGreedy values (List.range values.length) n = L.take n) ∧
    (selectGreedy [3, 1, 3] (List.range 3) 2 = [0, 2]) ∧
    (∀ A B C : String,
      (selectGreedy [3, 1, 3] (List.range 3) 2).map
        (fun i => [A, B, C].getD i "") = [A, C]) := by
  refine ⟨⟨sortedDescBy (fun i => values.getD i 0) (List.range values.length),
      sortedDescBy_perm _ _, sortedDescBy_pairwise _ _, rfl⟩, ?_, ?_⟩
  · decide
  · intro A B C
    have h : selectGreedy [3, 1, 3] (List.range 3) 2 = [0, 2] := by decide
    rw [h]
    rfl

/-! ### C8: weighted sampling selection -/

theorem cumsumFrom_getLastD (l : List Score) :
    ∀ a : Score, (cumsumFrom a l).getLastD a = a + l.sum := by
  induction l with
  | nil => intro a; simp [cumsumFrom]
  | cons p ps ih =>
    intro a
    simp only [cumsumFrom, List.sum_cons, List.getLastD_cons]
    rw [ih]
    ring

theorem sum_map_div (l : List Score) (s : Score) :
    (l.map (fun v => v / s)).sum = l.sum / s := by
  induction l with
  | nil => simp
  | cons p ps ih => simp [ih, add_div]

/-- Inverse-CDF lookup on the cumulative sums of nonnegative weights lands on
an index carrying strictly positive weight, provided the draw lies strictly
between the running total and the final total. -/
theorem searchsorted_support (ps : List Score) (u : Score)
    (hnn : ∀ p ∈ ps, 0 ≤ p) :
    ∀ a : Score, a ≤ u → u < a + ps.sum →
      searchsortedRight (cumsumFrom a ps) u < ps.length ∧
        0 < ps.getD (searchsortedRight (cumsumFrom a ps) u) 0 := by
  induction ps with
  | nil =>
    intro a hau hu
    rw [List.sum_nil, add_zero] at hu
    exact absurd hau (not_le.mpr hu)
  | cons p ps ih =>
    intro a hau hu
    rw [List.sum_cons] at hu
    by_cases hpu : a + p ≤ u
    · have hrec := ih (fun q hq => hnn q (List.mem_cons_of_mem _ hq))
        (a + p) hpu (by linarith)
      have hts : searchsortedRight (cumsumFrom a (p :: ps)) u
          = searchsortedRight (cumsumFrom (a + p) ps) u + 1 := by
        simp only [cumsumFrom, searchsortedRight, List.takeWhile_cons]
        rw [decide_eq_true hpu]
        simp [Nat.add_comm]
      rw [hts]
      refine ⟨by simpa using Nat.succ_lt_succ hrec.1, ?_⟩
      rw [List.getD_cons_succ]
      exact hrec.2
    · have hp : 0 < p := by
        have := not_le.mp hpu
        linarith
      have hts : searchsortedRight (cumsumFrom a (p :: ps)) u = 0 := by
        simp only [cumsumFrom, searchsortedRight, List.takeWhile_cons]
        rw [decide_eq_false hpu]
        simp
      rw [hts]
      exact ⟨by simp, by rw [List.getD_cons_zero]; exact hp⟩

/-- C8: with nonnegative scores of nonzero sum, the sampling selector
normalizes the scores into a probability distribution (summing to 1), draws
exactly `count` indices, and every drawn index is in range and carries a
strictly positive score.  For scores `[1, 0, 0]` every draw returns index 0,
so all `count` selected indices are 0. -/
theorem claim_C8 (values : List Score) (count : Nat) (draws : Nat → Score)
    (hnn : ∀ v ∈ values, 0 ≤ v) (hs : values.sum ≠ 0)
    (hd : ∀ k, 0 ≤ draws k ∧ draws k < 1) :
    ((values.map (fun v => v / values.sum)).sum = 1) ∧
    (selectSample values count draws).length = count ∧
    (∀ i ∈ selectSample values count draws,
      i < values.length ∧ 0 < values.getD i 0) ∧
    (values = [1, 0, 0] → selectSample values count draws
      = List.replicate count 0) := by
  have hspos : 0 < values.sum :=
    lt_of_le_of_ne (List.sum_nonneg hnn) (Ne.symm hs)
  have hnorm : (values.map (fun v => v / values.sum)).sum = 1 := by
    rw [sum_map_div, div_self hs]
  have hpsnn : ∀ p ∈ values.map (fun v => v / values.sum), 0 ≤ p := by
    intro p hp
    rw [List.mem_map] at hp
    obtain ⟨v, hv, rfl⟩ := hp
    exact div_nonneg (hnn v hv) hspos.le
  have htotal : (cumsumFrom 0 (values.map (fun v => v / values.sum))).getLastD 0
      = 1 := by
    have := cumsumFrom_getLastD (values.map (fun v => v / values.sum)) 0
    rw [this, zero_add, hnorm]
  have hcdf : (cumsumFrom 0 (values.map (fun v => v / values.sum))).map
      (fun c => c / (cumsumFrom 0
        (values.map (fun v => v / values.sum))).getLastD 0)
      = cumsumFrom 0 (values.map (fun v => v / values.sum)) := by
    rw [htotal]
    simp
  have hsel : selectSample values count draws
      = (List.range count).map (fun k => searchsortedRight
          (cumsumFrom 0 (values.map (fun v => v / values.sum))) (draws k)) := by
    simp only [selectSample, npChoice]
    rw [hcdf]
  refine ⟨hnorm, ?_, ?_, ?_⟩
  · rw [hsel]
    simp
  · intro i hi
    rw [hsel, List.mem_map] at hi
    obtain ⟨k, _, rfl⟩ := hi
    have hsup := searchsorted_support (values.map (fun v => v / values.sum))
      (draws k) hpsnn 0 (hd k).1 (by rw [zero_add, hnorm]; exact (hd k).2)
    rw [List.length_map] at hsup
    refine ⟨hsup.1, ?_⟩
    have h2 := hsup.2
    rw [List.getD_eq_getElem _ _ (by rw [List.length_map]; exact hsup.1),
      List.getElem_map] at h2
    rw [List.getD_eq_getElem _ _ hsup.1]
    rcases div_pos_iff.mp h2 with ⟨hv, _⟩ | ⟨_, hneg⟩
    · exact hv
    · exact absurd hneg (not_lt.mpr hspos.le)
  · intro hv
    subst hv
    have hmap : ([(1 : Score), 0, 0]).map
        (fun v => v / [(1 : Score), 0, 0].sum) = [1, 0, 0] := by
      norm_num
    have hcs : cumsumFrom 0 ([(1 : Score), 0, 0]) = [1, 1, 1] := by
      simp [cumsumFrom]
    rw [hsel, hmap, hcs]
    have h5 : ∀ k : Nat, searchsortedRight [(1 : Score), 1, 1] (draws k)
        = 0 := by
      intro k
      simp only [searchsortedRight, List.takeWhile_cons]
      rw [decide_eq_false (not_le.mpr (hd k).2)]
      simp
    rw [List.map_congr_left (fun k _ => h5 k)]
    have := List.eq_replicate_of_mem
      (l := (List.range count).map (fun _ : Nat => (0 : Nat))) (a := 0)
      (by intro b hb; rw [List.mem_map] at hb; obtain ⟨_, _, rfl⟩ := hb; rfl)
    rw [this]
    simp

theorem claim_C8_witness :
    ((∀ v ∈ [(1 : Score), 0, 0], 0 ≤ v) ∧
     ([(1 : Score), 0, 0]).sum ≠ 0 ∧
     (∀ k : Nat, 0 ≤ drawsW 0 k ∧ drawsW 0 k < 1)) ∧
    (([(1 : Score), 0, 0].map
        (fun v => v / [(1 : Score), 0, 0].sum)).sum = 1 ∧
     (selectSample [(1 : Score), 0, 0] 5 (drawsW 0)).length = 5 ∧
     (∀ i ∈ selectSample [(1 : Score), 0, 0] 5 (drawsW 0),
       i < [(1 : Score), 0, 0].length ∧
         0 < [(1 : Score), 0, 0].getD i 0) ∧
     ([(1 : Score), 0, 0] = [1, 0, 0] →
       selectSample [(1 : Score), 0, 0] 5 (drawsW 0)
         = List.replicate 5 0)) :=
  ⟨⟨by norm_num, by norm_num, fun _ => by norm_num [drawsW]⟩,
    claim_C8 [(1 : Score), 0, 0] 5 (drawsW 0) (by norm_num) (by norm_num)
      (fun _ => by norm_num [drawsW])⟩

/-! ### C7: shape of the search loop -/

theorem solveStep_shape (gpt : GptFn) (args : Args) (task : TotTask)
    (x : String) (d : Nat → Score) (step : Nat) (ys : List String) (st : St)
    (info : StepInfo) (sel : List String) (st1 : St)
    (h : solveStep gpt args task x d step ys st = (.ok (info, sel), st1)) :
    info.step = step ∧ info.ys = ys ∧ info.select_new_ys = sel := by
  simp only [solveStep] at h
  split at h
  · simp at h
  · split at h
    · split at h
      · simp at h
      · simp only [Prod.mk.injEq, Except.ok.injEq] at h
        obtain ⟨⟨hinfo, hsel⟩, -⟩ := h
        subst hinfo
        subst hsel
        exact ⟨rfl, rfl, rfl⟩
    · split at h
      · split at h
        · simp at h
        · simp only [Prod.mk.injEq, Except.ok.injEq] at h
          obtain ⟨⟨hinfo, hsel⟩, -⟩ := h
          subst hinfo
          subst hsel
          exact ⟨rfl, rfl, rfl⟩
      · simp at h

theorem solveLoop_ok (gpt : GptFn) (args : Args) (task : TotTask) (x : String)
    (draws : Nat → Nat → Score) :
    ∀ (fuel step : Nat) (ys : List String) (infos : List StepInfo) (st : St)
      (ysFin : List String) (infosFin : List StepInfo) (stFin : St),
      solveLoop gpt args task x draws fuel step ys infos st
        = (.ok (ysFin, infosFin), stFin) →
      ∃ tail : List StepInfo,
        infosFin = infos ++ tail ∧ tail.length = fuel ∧
        TraceOK step ys ysFin tail := by
  intro fuel
  induction fuel with
  | zero =>
    intro step ys infos st ysFin infosFin stFin h
    simp only [solveLoop, Prod.mk.injEq, Except.ok.injEq] at h
    obtain ⟨⟨hys, hinfos⟩, -⟩ := h
    subst hys
    subst hinfos
    exact ⟨[], (List.append_nil _).symm, rfl, rfl⟩
  | succ fuel ih =>
    intro step ys infos st ysFin infosFin stFin h
    simp only [solveLoop] at h
    cases hstep : solveStep gpt args task x (draws step) step ys st with
    | mk res st1 =>
      rw [hstep] at h
      cases res with
      | error e => simp at h
      | ok pair =>
        obtain ⟨info, sel⟩ := pair
        obtain ⟨tail, h1, h2, h3⟩ :=
          ih (step + 1) sel (infos ++ [info]) st1 ysFin infosFin stFin h
        obtain ⟨hs1, hs2, hs3⟩ := solveStep_shape gpt args task x
          (draws step) step ys st info sel st1 hstep
        refine ⟨info :: tail, ?_, ?_, ?_⟩
        · rw [h1, List.append_assoc, List.singleton_append]
        · simp [h2]
        · exact ⟨hs1, hs2, by rw [hs3]; exact h3⟩

theorem traceOK_get (tr : List StepInfo) :
    ∀ (start : Nat) (ys0 ysFin : List String), TraceOK start ys0 ysFin tr →
      ∀ (k : Nat) (hk : k < tr.length), (tr.get ⟨k, hk⟩).step = start + k := by
  induction tr with
  | nil => intro start ys0 ysFin _ k hk; simp at hk
  | cons r rest ih =>
    intro start ys0 ysFin h k hk
    obtain ⟨hstep, hys, hrest⟩ := h
    cases k with
    | zero => simpa using hstep
    | succ k =>
      have hk2 : k < rest.length := by simpa using hk
      have := ih (start + 1) r.select_new_ys ysFin hrest k hk2
      simp only [List.get_cons_succ]
      rw [this]
      omega

/-- C7: whenever `solve` returns normally, the trace has exactly
`task.steps` records; read from the initial frontier `[""]`, the records
chain (record `i` carries step index `i`, its frontier-before is the
previous record's frontier-after, the first frontier-before is `[""]`), and
the last record's frontier-after is the returned frontier (which is `[""]`
itself when there are no steps). -/
theorem claim_C7 (gpt : GptFn) (args : Args) (task : TotTask) (idx : Nat)
    (draws : Nat → Nat → Score) (st : St) (ysFin : List String)
    (trace : List StepInfo) (stFin : St)
    (h : solve gpt args task idx draws st = (.ok (ysFin, trace), stFin)) :
    trace.length = task.steps ∧ TraceOK 0 [""] ysFin trace ∧
    ∀ (k : Nat) (hk : k < trace.length), (trace.get ⟨k, hk⟩).step = k := by
  simp only [solve] at h
  obtain ⟨tail, h1, h2, h3⟩ := solveLoop_ok gpt args task (task.get_input idx)
    draws task.steps 0 [""] [] st ysFin trace stFin h
  rw [List.nil_append] at h1
  subst h1
  refine ⟨h2, h3, ?_⟩
  intro k hk
  have := traceOK_get trace 0 [""] ysFin h3 k hk
  simpa using this

theorem claim_C7_witness :
    solve gptW argsW { taskW with steps := 1 } 0 drawsW stEmpty
      = (.ok (["z"], [⟨0, "X", [""], ["z"], [3], ["z"]⟩]),
         ⟨[("VAL:X:z", 3)], [("STD:X:", 1, none), ("VAL:X:z", 1, none)]⟩) ∧
    ([(⟨0, "X", [""], ["z"], [3], ["z"]⟩ : StepInfo)].length
        = ({ taskW with steps := 1 } : TotTask).steps ∧
      TraceOK 0 [""] ["z"] [⟨0, "X", [""], ["z"], [3], ["z"]⟩] ∧
      ∀ (k : Nat)
        (hk : k < [(⟨0, "X", [""], ["z"], [3], ["z"]⟩ : StepInfo)].length),
        (([(⟨0, "X", [""], ["z"], [3], ["z"]⟩ : StepInfo)]).get ⟨k, hk⟩).step
          = k) := by
  have hsolve : solve gptW argsW { taskW with steps := 1 } 0 drawsW stEmpty
      = (.ok (["z"], [⟨0, "X", [""], ["z"], [3], ["z"]⟩]),
         ⟨[("VAL:X:z", 3)], [("STD:X:", 1, none), ("VAL:X:z", 1, none)]⟩) := by
    rfl
  exact ⟨hsolve, claim_C7 gptW argsW { taskW with steps := 1 } 0 drawsW
    stEmpty ["z"] [⟨0, "X", [""], ["z"], [3], ["z"]⟩] _ hsolve⟩

/-! ### C1: behaviour on unrecognized strategy identifiers -/

/-- A run configuration with an unrecognized evaluation strategy. -/
def argsBadEval : Args := { argsW with method_evaluate := "bogus" }

/-- A run configuration with unrecognized evaluation and selection
strategies. -/
def argsBadBoth : Args :=
  { argsW with method_evaluate := "bogus", method_select := "bogus2" }

/-- C1 as stated is false: with a recognized generation strategy but an
unrecognized `method_evaluate`, `solve` issues a generation LLM call first
and then fails with an unbound-variable error (`values`), not with a
configuration error naming the bad identifier. -/
theorem claim_C1_counterexample :
    solve gptW argsBadEval taskW 0 drawsW stEmpty
      = (.error (.nameError "values"),
         ⟨[], [("STD:X:", 1, none)]⟩) ∧
    (∀ msg : String, PyErr.nameError "values" ≠ PyErr.valueError msg) ∧
    ([(("STD:X:" : String), (1 : Nat), (none : Option String))].length ≠ 0) :=
  ⟨rfl, fun _ h => PyErr.noConfusion h, by decide⟩

/-- C1 (amended): only the template-mode dispatch (`prompt_sample` inside
`get_samples`) fails fast with an explicit `ValueError` naming the bad value
before any LLM call.  The three dispatches in `solve` have no else-branch:
an unrecognized `method_generate` makes `solve` fail before any LLM call but
with an unbound-variable error on `new_ys` that does not name the value; an
unrecognized `method_evaluate` (with recognized generation and selection)
makes `solve` fail with an unbound-variable error on `values` only after the
generation LLM call has been issued; and an unrecognized `method_select`
(here with unrecognized evaluation too) makes `solve` fail with an
unbound-variable error on `select_ids`, again after the generation LLM call
— `values` is never read in that case. -/
theorem claim_C1 :
    (∀ (gpt : GptFn) (task : TotTask) (x y : String) (n : Nat) (ps : String)
        (stop : Option String) (st : St),
      ps ≠ "standard" → ps ≠ "cot" →
      get_samples gpt task x y n ps stop st
        = (.error (.valueError ("prompt_sample " ++ ps ++ " not recognized")),
           st)) ∧
    (∀ (gpt : GptFn) (args : Args) (task : TotTask) (idx : Nat)
        (draws : Nat → Nat → Score) (st : St),
      args.method_generate ≠ "sample" → args.method_generate ≠ "propose" →
      1 ≤ task.steps →
      solve gpt args task idx draws st = (.error (.nameError "new_ys"), st)) ∧
    (∀ (gpt : GptFn) (args : Args) (task : TotTask) (idx : Nat)
        (draws : Nat → Nat → Score) (st : St),
      args.method_generate = "sample" → args.prompt_sample = "standard" →
      args.method_evaluate ≠ "vote" → args.method_evaluate ≠ "value" →
      (args.method_select = "sample" ∨ args.method_select = "greedy") →
      1 ≤ task.steps →
      solve gpt args task idx draws st
        = (.error (.nameError "values"),
           ⟨st.value_cache,
            st.calls ++ [(task.standard_prompt_wrap (task.get_input idx) "",
              args.n_generate_sample, task.stops 0)]⟩)) ∧
    (∀ (gpt : GptFn) (args : Args) (task : TotTask) (idx : Nat)
        (draws : Nat → Nat → Score) (st : St),
      args.method_generate = "sample" → args.prompt_sample = "standard" →
      args.method_evaluate ≠ "vote" → args.method_evaluate ≠ "value" →
      args.method_select ≠ "sample" → args.method_select ≠ "greedy" →
      1 ≤ task.steps →
      solve gpt args task idx draws st
        = (.error (.nameError "select_ids"),
           ⟨st.value_cache,
            st.calls ++ [(task.standard_prompt_wrap (task.get_input idx) "",
              args.n_generate_sample, task.stops 0)]⟩)) := by
  refine ⟨?_, ?_, ?_, ?_⟩
  · intro gpt task x y n ps stop st h1 h2
    simp only [get_samples]
    rw [if_neg h1, if_neg h2]
  · intro gpt args task idx draws st h1 h2 hsteps
    obtain ⟨m, hm⟩ : ∃ m, task.steps = m + 1 := ⟨task.steps - 1, by omega⟩
    simp only [solve, hm, solveLoop, solveStep]
    rw [if_neg h1, if_neg h2]
  · intro gpt args task idx draws st hg hps h3 h4 hsel hsteps
    obtain ⟨m, hm⟩ : ∃ m, task.steps = m + 1 := ⟨task.steps - 1, by omega⟩
    simp only [solve, hm, solveLoop, solveStep]
    rw [if_pos hg]
    simp only [mapGen, get_samples]
    rw [if_pos hps]
    simp only [callGpt]
    rw [if_neg h3, if_neg h4]
    rcases hsel with h5 | h5
    · rw [if_pos h5]
    · have h6 : args.method_select ≠ "sample" := by
        rw [h5]; decide
      rw [if_neg h6, if_pos h5]
  · intro gpt args task idx draws st hg hps h3 h4 h5 h6 hsteps
    obtain ⟨m, hm⟩ : ∃ m, task.steps = m + 1 := ⟨task.steps - 1, by omega⟩
    simp only [solve, hm, solveLoop, solveStep]
    rw [if_pos hg]
    simp only [mapGen, get_samples]
    rw [if_pos hps]
    simp only [callGpt]
    rw [if_neg h3, if_neg h4, if_neg h5, if_neg h6]

theorem claim_C1_witness :
    (("nope" : String) ≠ "standard" ∧ ("nope" : String) ≠ "cot" ∧
      get_samples gptW taskW "X" "" 1 "nope" none stEmpty
        = (.error (.valueError ("prompt_sample " ++ "nope"
            ++ " not recognized")), stEmpty)) ∧
    (({ argsW with method_generate := "huh" } : Args).method_generate
        ≠ "sample" ∧
      ({ argsW with method_generate := "huh" } : Args).method_generate
        ≠ "propose" ∧
      1 ≤ taskW.steps ∧
      solve gptW { argsW with method_generate := "huh" } taskW 0 drawsW
          stEmpty
        = (.error (.nameError "new_ys"), stEmpty)) ∧
    (argsBadBoth.method_generate = "sample" ∧
      argsBadBoth.prompt_sample = "standard" ∧
      argsBadBoth.method_evaluate ≠ "vote" ∧
      argsBadBoth.method_evaluate ≠ "value" ∧
      argsBadBoth.method_select ≠ "sample" ∧
      argsBadBoth.method_select ≠ "greedy" ∧
      solve gptW argsBadBoth taskW 0 drawsW stEmpty
        = (.error (.nameError "select_ids"),
           ⟨stEmpty.value_cache,
            stEmpty.calls ++ [(taskW.standard_prompt_wrap
              (taskW.get_input 0) "", argsBadBoth.n_generate_sample,
              taskW.stops 0)]⟩)) :=
  ⟨⟨by decide, by decide,
      claim_C1.1 gptW taskW "X" "" 1 "nope" none stEmpty (by decide)
        (by decide)⟩,
    ⟨by decide, by decide, by decide,
      claim_C1.2.1 gptW { argsW with method_generate := "huh" } taskW 0
        drawsW stEmpty (by decide) (by decide) (by decide)⟩,
    ⟨rfl, rfl, by decide, by decide, by decide, by decide,
      claim_C1.2.2.2 gptW argsBadBoth taskW 0 drawsW stEmpty rfl rfl
        (by decide) (by decide) (by decide) (by decide) (by decide)⟩⟩
